import Mathlib

set_option maxRecDepth 100000

/-!
Shallow embedding of the ULTIMA-PRIME CI diagnosis scanner
(`tools/ultimaprime/scan_ci.py`).

Log text is modelled as `List Char`.  Each of the five inline regular
expressions of `parse_output` is translated into an explicit matcher
(`p1MatchAt` … `p5MatchAt`): given a suffix of the text, the matcher
returns the length of the (leftmost-at-this-position) match together with
the captured groups, following Python `re` semantics for these concrete
patterns (greedy and lazy repetition, `.` not matching a newline,
`re.IGNORECASE` on pattern 1).  `re.finditer` is modelled by `findIter`,
which scans positions left to right and resumes after each match
(non-overlapping matches).  Context extraction (`output[max(0, start-k)
: end+200]` followed by `.strip()`) is `extract`.  The report assembly of
`main` is `mkReport`, and the origin-selection logic of `main` is
`main_run`, with the file system and the subprocess result passed in
explicitly.
-/

namespace UltimaPrime

/-- Log text is a list of characters. -/
abbrev Str := List Char

/-- Boolean test that `p` is literally a prefix of `s` (character equality). -/
def litPrefixOf : Str → Str → Bool
  | [], _ => true
  | _ :: _, [] => false
  | p :: ps, c :: cs => if p = c then litPrefixOf ps cs else false

/-- Case-insensitive prefix test, modelling `re.IGNORECASE` matching of an
ASCII literal: characters are compared after `Char.toLower`. -/
def ciPrefixOf : Str → Str → Bool
  | [], _ => true
  | _ :: _, [] => false
  | p :: ps, c :: cs => if p.toLower = c.toLower then ciPrefixOf ps cs else false

/-- Index of the first newline character, if any.  Models the lazy `.*?\n`
tail of pattern 1: `.` does not match `'\n'`, so the lazy repetition stops
at the first newline. -/
def firstNL : Str → Option Nat
  | [] => none
  | c :: rest => if c = '\n' then some 0 else (firstNL rest).map (· + 1)

/-- Python regex word character `\w` (ASCII fragment). -/
def isWordChar (c : Char) : Bool := c.isAlphanum || c = '_'

/-- Python slice `s[a:b]` for nonnegative `a`, `b`: both bounds are clamped
to the string length, and an empty string results when `a ≥ b`. -/
def pySlice (s : Str) (a b : Nat) : Str := (s.take b).drop a

/-- Remove trailing whitespace. -/
def stripEnd (s : Str) : Str := (s.reverse.dropWhile Char.isWhitespace).reverse

/-- Python `str.strip()`: remove leading and trailing whitespace. -/
def pyStrip (s : Str) : Str := stripEnd (s.dropWhile Char.isWhitespace)

/-- The literal of pattern 1. -/
def L1 : Str := "NameError: name 'Optional' is not defined".toList

/-- The literal of pattern 2. -/
def L2 : Str := "ModuleNotFoundError: No module named 'RestrictedPython'".toList

/-- The opening literal of pattern 3 (`Field\(`). -/
def FIELDLIT : Str := "Field(".toList

/-- The closing literal of pattern 3 (`regex=`). -/
def REGEQLIT : Str := "regex=".toList

/-- The opening literal of pattern 4 (`ERROR`). -/
def ERRORLIT : Str := "ERROR".toList

/-- The literal of pattern 4 after the `[Uu]` alternative
(`nknown pytest\.mark\.`). -/
def MARKERLIT : Str := "nknown pytest.mark.".toList

/-- The opening literal of pattern 5 (`ImportError: cannot import name '`). -/
def P5LIT : Str := "ImportError: cannot import name '".toList

/-- The middle literal of pattern 5 (`' from '`). -/
def P5MID : Str := "' from '".toList

/-- Matcher for pattern 1, `NameError: name 'Optional' is not defined.*?\n`
with `re.IGNORECASE`: the literal (case-insensitively) followed by the rest
of the line and its terminating newline.  Returns the match length. -/
def p1MatchAt (s : Str) : Option (Nat × Unit) :=
  if ciPrefixOf L1 s then
    match firstNL (s.drop L1.length) with
    | some k => some (L1.length + k + 1, ())
    | none => none
  else none

/-- Matcher for pattern 2, the literal
`ModuleNotFoundError: No module named 'RestrictedPython'`. -/
def p2MatchAt (s : Str) : Option (Nat × Unit) :=
  if litPrefixOf L2 s then some (L2.length, ()) else none

/-- Helper for pattern 3: on the text after `Field(`, the greedy `[^)]*`
followed by `regex=`.  Returns the number of characters consumed by
`[^)]*`, choosing the largest possible value (greedy), where every skipped
character must differ from `')'`. -/
def p3Aux : Str → Option Nat
  | [] => none
  | c :: rest =>
    let here : Option Nat := if litPrefixOf REGEQLIT (c :: rest) then some 0 else none
    if c = ')' then none
    else
      match p3Aux rest with
      | some k => some (k + 1)
      | none => here

/-- Matcher for pattern 3, `Field\([^)]*regex=`. -/
def p3MatchAt (s : Str) : Option (Nat × Unit) :=
  if litPrefixOf FIELDLIT s then
    match p3Aux (s.drop FIELDLIT.length) with
    | some k => some (FIELDLIT.length + k + REGEQLIT.length, ())
    | none => none
  else none

/-- Helper for pattern 4: on the text after `ERROR`, the greedy `.*`
(not crossing a newline) followed by `[Uu]nknown pytest\.mark\.(\w+)`.
Returns the consumed length together with the captured marker name,
preferring the rightmost possible start of `[Uu]nknown` (greedy `.*`).
The captured `\w+` group is the maximal word-character run. -/
def p4Aux : Str → Option (Nat × Str)
  | [] => none
  | c :: rest =>
    if c = '\n' then none
    else
      let here : Option (Nat × Str) :=
        if (c = 'U' || c = 'u') && litPrefixOf MARKERLIT rest then
          let w := (rest.drop MARKERLIT.length).takeWhile isWordChar
          if w = [] then none
          else some (1 + MARKERLIT.length + w.length, w)
        else none
      match p4Aux rest with
      | some (k, w) => some (k + 1, w)
      | none => here

/-- Matcher for pattern 4, `ERROR.*[Uu]nknown pytest\.mark\.(\w+)`. -/
def p4MatchAt (s : Str) : Option (Nat × Str) :=
  if litPrefixOf ERRORLIT s then
    match p4Aux (s.drop ERRORLIT.length) with
    | some (k, w) => some (ERRORLIT.length + k, w)
    | none => none
  else none

/-- Matcher for pattern 5,
`ImportError: cannot import name '(\w+)' from '([^']+)'`.  The `\w+` and
`[^']+` groups are maximal runs (no backtracking is possible because the
character following each run is forced to be a quote).  Returns the match
length and the two captured groups (symbol, module). -/
def p5MatchAt (s : Str) : Option (Nat × (Str × Str)) :=
  if litPrefixOf P5LIT s then
    let t := s.drop P5LIT.length
    let w := t.takeWhile isWordChar
    if w = [] then none
    else
      let t2 := t.drop w.length
      if litPrefixOf P5MID t2 then
        let t3 := t2.drop P5MID.length
        let md := t3.takeWhile (fun c => !(c = '\''))
        if md = [] then none
        else
          match t3.drop md.length with
          | c :: _ => if c = '\'' then
              some (P5LIT.length + w.length + P5MID.length + md.length + 1, (w, md))
            else none
          | [] => none
      else none
  else none

/-- Fuel-driven core of `findIter`: try the matcher at the current
position; on success emit `(start, stop, groups)` and resume after the
match (`re.finditer` matches never overlap), otherwise advance one
character.  One unit of fuel is spent per consumed character, so fuel equal
to the text length suffices. -/
def findIterAux {γ : Type} (f : Str → Option (Nat × γ)) :
    Nat → Str → Nat → List (Nat × Nat × γ)
  | 0, _, _ => []
  | _ + 1, [], _ => []
  | fuel + 1, c :: rest, pos =>
    match f (c :: rest) with
    | some (len, g) =>
      (pos, pos + max len 1, g) ::
        findIterAux f fuel (rest.drop (max len 1 - 1)) (pos + max len 1)
    | none => findIterAux f fuel rest (pos + 1)

/-- Model of `re.finditer`: all non-overlapping matches of the matcher in
the text, scanning left to right. -/
def findIter {γ : Type} (f : Str → Option (Nat × γ)) (s : Str) :
    List (Nat × Nat × γ) :=
  findIterAux f s.length s 0

/-- One issue record; fields mirror the keys of the Python dicts built in
`parse_output`.  A field whose key is absent from a given dict is `none`. -/
structure Issue where
  type : Str
  severity : Str
  pattern : Option Str
  dependency : Option Str
  imported_name : Option Str
  from_module : Option Str
  context : Str
  fix : Str
deriving DecidableEq

/-- The kind-specific structured fields present on an issue record, as
key/value pairs (mirroring which optional dict keys are present). -/
def extraFields (i : Issue) : List (Str × Str) :=
  (match i.dependency with
   | some d => [("dependency".toList, d)]
   | none => []) ++
  (match i.imported_name with
   | some n => [("imported_name".toList, n)]
   | none => []) ++
  (match i.from_module with
   | some m => [("from_module".toList, m)]
   | none => [])

/-- Context extraction: `output[max(0, start - before) : stop + after]`
followed by `.strip()`.  Natural-number subtraction models the explicit
`max(0, …)` clamp and Python slicing clamps the end bound. -/
def extract (output : Str) (start stop before after : Nat) : Str :=
  pyStrip (pySlice output (start - before) (stop + after))

/-- Issue built for a pattern-1 match. -/
def mkIssue1 (output : Str) (m : Nat × Nat × Unit) : Issue :=
  { type := "MissingOptionalImport".toList
    severity := "HIGH".toList
    pattern := some L1
    dependency := none
    imported_name := none
    from_module := none
    context := extract output m.1 m.2.1 300 200
    fix := "Добавить 'from typing import Optional' в импорты".toList }

/-- Issue built for a pattern-2 match. -/
def mkIssue2 (output : Str) (m : Nat × Nat × Unit) : Issue :=
  { type := "MissingDependency".toList
    severity := "HIGH".toList
    pattern := some L2
    dependency := some "RestrictedPython".toList
    imported_name := none
    from_module := none
    context := extract output m.1 m.2.1 300 200
    fix := "Добавить 'RestrictedPython>=6.0' в requirements.txt или pyproject.toml".toList }

/-- Issue built for a pattern-3 match. -/
def mkIssue3 (output : Str) (m : Nat × Nat × Unit) : Issue :=
  { type := "PydanticV2Migration".toList
    severity := "MEDIUM".toList
    pattern := some "Field(..., regex=...)".toList
    dependency := none
    imported_name := none
    from_module := none
    context := extract output m.1 m.2.1 300 200
    fix := "Заменить 'regex=' на 'pattern=' (Pydantic v2)".toList }

/-- Issue built for a pattern-4 match.  The captured marker name is not
stored anywhere in the record, exactly as in the source dict. -/
def mkIssue4 (output : Str) (m : Nat × Nat × Str) : Issue :=
  { type := "UnknownPytestMarker".toList
    severity := "MEDIUM".toList
    pattern := none
    dependency := none
    imported_name := none
    from_module := none
    context := extract output m.1 m.2.1 200 200
    fix := "Определить маркер в pytest.ini или conftest.py".toList }

/-- Issue built for a pattern-5 match, carrying both captured groups. -/
def mkIssue5 (output : Str) (m : Nat × Nat × (Str × Str)) : Issue :=
  { type := "ImportError".toList
    severity := "HIGH".toList
    pattern := none
    dependency := none
    imported_name := some m.2.2.1
    from_module := some m.2.2.2
    context := extract output m.1 m.2.1 200 200
    fix := "Проверить экспорт '".toList ++ m.2.2.1 ++ "' из модуля '".toList
      ++ m.2.2.2 ++ "'".toList }

/-- Issues contributed by pattern 1. -/
def block1 (output : Str) : List Issue :=
  (findIter p1MatchAt output).map (mkIssue1 output)

/-- Issues contributed by pattern 2. -/
def block2 (output : Str) : List Issue :=
  (findIter p2MatchAt output).map (mkIssue2 output)

/-- Issues contributed by pattern 3. -/
def block3 (output : Str) : List Issue :=
  (findIter p3MatchAt output).map (mkIssue3 output)

/-- Issues contributed by pattern 4. -/
def block4 (output : Str) : List Issue :=
  (findIter p4MatchAt output).map (mkIssue4 output)

/-- Issues contributed by pattern 5. -/
def block5 (output : Str) : List Issue :=
  (findIter p5MatchAt output).map (mkIssue5 output)

/-- `parse_output`: the five patterns are scanned in registration order and
their issues appended in that order. -/
def parse_output (output : Str) : List Issue :=
  block1 output ++ block2 output ++ block3 output ++ block4 output ++ block5 output

/-- The report assembled in `main`: `total_issues = len(issues)` and the
severity buckets are counts over the issue list, each bucket comparing the
severity string of every issue. -/
structure Report where
  return_code : Int
  total_issues : Nat
  issues : List Issue
  by_severity_HIGH : Nat
  by_severity_MEDIUM : Nat
  by_severity_LOW : Nat
deriving DecidableEq

/-- Build the report from the return code and the issue list, mirroring the
`report = {...}` dict literal in `main`. -/
def mkReport (rc : Int) (issues : List Issue) : Report :=
  { return_code := rc
    total_issues := issues.length
    issues := issues
    by_severity_HIGH := (issues.filter (fun i => i.severity = "HIGH".toList)).length
    by_severity_MEDIUM := (issues.filter (fun i => i.severity = "MEDIUM".toList)).length
    by_severity_LOW := (issues.filter (fun i => i.severity = "LOW".toList)).length }

/-- CLI arguments: `--run-pytest` is a boolean flag, `--pytest-log` an
optional string path (default `None`). -/
structure Args where
  run_pytest : Bool
  pytest_log : Option Str
deriving DecidableEq

/-- Outcome of one invocation of `main`: either an early `sys.exit` before
any report is produced, or a finished run that wrote both report artifacts
and returned an exit code. -/
inductive MainResult where
  | earlyExit (code : Int)
  | finished (report : Report) (exitCode : Int)
deriving DecidableEq

/-- Whether the invocation wrote the report artifacts: both files are
written exactly when `main` gets past origin selection. -/
def artifactsWritten : MainResult → Bool
  | .earlyExit _ => false
  | .finished _ _ => true

/-- Origin selection and report production of `main`.  The file system and
the subprocess result are explicit parameters.  `elif args.pytest_log:`
uses Python truthiness, so an empty path string behaves like an absent one.
A missing log file exits with status 1; no origin at all exits with
status 2; otherwise the report is built and the exit code is 0 without
issues and 1 with issues. -/
def main_run (args : Args) (fs : Str → Option Str) (pytestRC : Int)
    (pytestOut : Str) : MainResult :=
  if args.run_pytest then
    let issues := parse_output pytestOut
    .finished (mkReport pytestRC issues) (if issues.length = 0 then 0 else 1)
  else
    match args.pytest_log with
    | some path =>
      if path = [] then .earlyExit 2
      else
        match fs path with
        | some output =>
          let issues := parse_output output
          .finished (mkReport 0 issues) (if issues.length = 0 then 0 else 1)
        | none => .earlyExit 1
    | none => .earlyExit 2

/-- Detector registration index of an issue, recovered from its type tag. -/
def detectorIndex (i : Issue) : Nat :=
  if i.type = "MissingOptionalImport".toList then 1
  else if i.type = "MissingDependency".toList then 2
  else if i.type = "PydanticV2Migration".toList then 3
  else if i.type = "UnknownPytestMarker".toList then 4
  else 5

/-- The pattern occurs (as an exact substring) at offset `p` of `s`. -/
def occursAt (pat s : Str) (p : Nat) : Prop := litPrefixOf pat (s.drop p) = true

instance (pat s : Str) (p : Nat) : Decidable (occursAt pat s p) := by
  unfold occursAt; infer_instance

/-- A default issue record, used only to name elements of concrete issue
lists in witness statements. -/
def dIssue : Issue :=
  { type := [], severity := [], pattern := none, dependency := none
    imported_name := none, from_module := none, context := [], fix := [] }

/-- A log line triggering pattern 4. -/
def markerText : Str := "ERROR tests/a.py - Unknown pytest.mark.slow\n".toList

/-- A log consisting of the pattern-1 error string with no trailing
newline. -/
def optBare : Str := L1

/-- A log consisting of the pattern-1 error string on a newline-terminated
line. -/
def optLine : Str := L1 ++ "\n".toList

/-- First capture group of the pattern-5 test string. -/
def W7 : Str := "Foo".toList

/-- Second capture group of the pattern-5 test string. -/
def M7 : Str := "pkg.bar".toList

/-- The pattern-5 test string
`ImportError: cannot import name 'Foo' from 'pkg.bar'`, assembled from its
parts. -/
def LIT7 : Str := P5LIT ++ W7 ++ P5MID ++ M7 ++ [Char.ofNat 39]

/-- A log in which `LIT7` occurs but is swallowed by an earlier
overlapping pattern-5 match whose module group absorbs the text up to the
quote before `Foo`. -/
def evilText : Str := "ImportError: cannot import name 'Evil' from '".toList ++ LIT7

/-- The matches a detector contributes are non-overlapping and listed in
match order: each match ends no later than the next one starts. -/
def scanNonOverlap {γ : Type} (f : Str → Option (Nat × γ)) (t : Str) : Prop :=
  List.Pairwise (fun a b => a.2.1 ≤ b.1) (findIter f t)

/-- A detector contributes all its matches, not just the first: every
position where its matcher succeeds is covered by some emitted match. -/
def scanComplete {γ : Type} (f : Str → Option (Nat × γ)) (t : Str) : Prop :=
  ∀ p r, f (t.drop p) = some r → ∃ m ∈ findIter f t, m.1 ≤ p ∧ p < m.2.1

/- ### Generic facts about the `findIter` scan driver -/

theorem litPrefixOf_append (p r : Str) : litPrefixOf p (p ++ r) = true := by
  induction p with
  | nil => rfl
  | cons c ps ih => simpa [litPrefixOf] using ih

theorem litPrefixOf_decomp {p s : Str} (h : litPrefixOf p s = true) :
    ∃ r, s = p ++ r := by
  induction p generalizing s with
  | nil => exact ⟨s, rfl⟩
  | cons c ps ih =>
    cases s with
    | nil => simp [litPrefixOf] at h
    | cons d rest =>
      rw [litPrefixOf] at h
      by_cases hcd : c = d
      · rw [if_pos hcd] at h
        obtain ⟨r, hr⟩ := ih h
        exact ⟨r, by rw [hr, hcd]; rfl⟩
      · rw [if_neg hcd] at h
        exact absurd h (by simp)

theorem ciPrefixOf_of_lit {p s : Str} (h : litPrefixOf p s = true) :
    ciPrefixOf p s = true := by
  induction p generalizing s with
  | nil => rfl
  | cons c ps ih =>
    cases s with
    | nil => simp [litPrefixOf] at h
    | cons d rest =>
      rw [litPrefixOf] at h
      by_cases hcd : c = d
      · rw [if_pos hcd] at h
        rw [ciPrefixOf, if_pos (by rw [hcd])]
        exact ih h
      · rw [if_neg hcd] at h
        exact absurd h (by simp)

theorem occursAt_lt {pat s : Str} {q : Nat} (hne : pat ≠ [])
    (h : occursAt pat s q) : q < s.length := by
  by_contra hq
  push_neg at hq
  rw [occursAt, List.drop_eq_nil_of_le hq] at h
  cases pat with
  | nil => exact hne rfl
  | cons c ps => simp [litPrefixOf] at h

theorem firstNL_of_mem {l : Str} (h : '\n' ∈ l) : ∃ k, firstNL l = some k := by
  induction l with
  | nil => cases h
  | cons c rest ih =>
    by_cases hc : c = '\n'
    · exact ⟨0, by simp [firstNL, hc]⟩
    · have hr : '\n' ∈ rest := by
        rcases List.mem_cons.mp h with h1 | h1
        · exact absurd h1.symm hc
        · exact h1
      obtain ⟨k, hk⟩ := ih hr
      exact ⟨k + 1, by simp [firstNL, hc, hk]⟩

theorem takeWhile_prepend {p : Char → Bool} {a : Str} (h : ∀ x ∈ a, p x = true)
    (b : Str) : (a ++ b).takeWhile p = a ++ b.takeWhile p := by
  induction a with
  | nil => rfl
  | cons c rest ih =>
    have hc : p c = true := h c (by simp)
    have hrest : ∀ x ∈ rest, p x = true := fun x hx => h x (by simp [hx])
    simp [List.takeWhile_cons, hc, ih hrest]

theorem takeWhile_cons_neg {p : Char → Bool} {c : Char} {l : Str}
    (h : p c = false) : (c :: l).takeWhile p = [] := by
  simp [List.takeWhile_cons, h]

theorem findIterAux_zero {γ : Type} (f : Str → Option (Nat × γ)) (s : Str)
    (pos : Nat) : findIterAux f 0 s pos = [] := rfl

theorem findIterAux_nil {γ : Type} (f : Str → Option (Nat × γ)) (fuel pos : Nat) :
    findIterAux f (fuel + 1) [] pos = [] := rfl

theorem findIterAux_cons_some {γ : Type} {f : Str → Option (Nat × γ)}
    {c : Char} {rest : Str} {len : Nat} {g : γ} (fuel pos : Nat)
    (hf : f (c :: rest) = some (len, g)) :
    findIterAux f (fuel + 1) (c :: rest) pos =
      (pos, pos + max len 1, g) ::
        findIterAux f fuel (rest.drop (max len 1 - 1)) (pos + max len 1) := by
  simp [findIterAux, hf]

theorem findIterAux_cons_none {γ : Type} {f : Str → Option (Nat × γ)}
    {c : Char} {rest : Str} (fuel pos : Nat) (hf : f (c :: rest) = none) :
    findIterAux f (fuel + 1) (c :: rest) pos =
      findIterAux f fuel rest (pos + 1) := by
  simp [findIterAux, hf]

theorem findIterAux_sound {γ : Type} (f : Str → Option (Nat × γ)) :
    ∀ (fuel : Nat) (s : Str) (pos : Nat) (m : Nat × Nat × γ),
      m ∈ findIterAux f fuel s pos →
      pos ≤ m.1 ∧ ∃ len, f (s.drop (m.1 - pos)) = some (len, m.2.2) ∧
        m.2.1 = m.1 + max len 1 := by
  intro fuel
  induction fuel with
  | zero => intro s pos m hm; simp [findIterAux_zero] at hm
  | succ fuel ih =>
    intro s pos m hm
    match s with
    | [] => simp [findIterAux_nil] at hm
    | c :: rest =>
      have hmax : 1 ≤ max 1 1 := le_refl 1
      cases hf : f (c :: rest) with
      | some v =>
        obtain ⟨len, g⟩ := v
        rw [findIterAux_cons_some fuel pos hf] at hm
        have hl : 1 ≤ max len 1 := Nat.le_max_right len 1
        rcases List.mem_cons.mp hm with hm | hm
        · subst hm
          exact ⟨le_refl _, len, by simpa using hf, rfl⟩
        · obtain ⟨h1, len', hf', he⟩ := ih _ _ _ hm
          refine ⟨by omega, len', ?_, he⟩
          have hd : (rest.drop (max len 1 - 1)).drop (m.1 - (pos + max len 1)) =
              (c :: rest).drop (m.1 - pos) := by
            obtain ⟨d, hdd⟩ : ∃ d, m.1 - pos = d + 1 := ⟨m.1 - pos - 1, by omega⟩
            rw [List.drop_drop, hdd, List.drop_succ_cons]
            have h2 : max len 1 - 1 + (m.1 - (pos + max len 1)) = d := by omega
            rw [h2]
          rw [← hd]; exact hf'
      | none =>
        rw [findIterAux_cons_none fuel pos hf] at hm
        obtain ⟨h1, len', hf', he⟩ := ih _ _ _ hm
        refine ⟨by omega, len', ?_, he⟩
        have hd : rest.drop (m.1 - (pos + 1)) = (c :: rest).drop (m.1 - pos) := by
          obtain ⟨d, hdd⟩ : ∃ d, m.1 - pos = d + 1 := ⟨m.1 - pos - 1, by omega⟩
          rw [hdd, List.drop_succ_cons]
          have h2 : m.1 - (pos + 1) = d := by omega
          rw [h2]
        rw [← hd]; exact hf'

theorem findIterAux_pairwise {γ : Type} (f : Str → Option (Nat × γ)) :
    ∀ (fuel : Nat) (s : Str) (pos : Nat),
      List.Pairwise (fun a b : Nat × Nat × γ => a.2.1 ≤ b.1)
        (findIterAux f fuel s pos) := by
  intro fuel
  induction fuel with
  | zero => intro s pos; simp [findIterAux_zero]
  | succ fuel ih =>
    intro s pos
    match s with
    | [] => simp [findIterAux_nil]
    | c :: rest =>
      cases hf : f (c :: rest) with
      | some v =>
        obtain ⟨len, g⟩ := v
        rw [findIterAux_cons_some fuel pos hf]
        refine List.Pairwise.cons ?_ (ih _ _)
        intro b hb
        exact (findIterAux_sound f _ _ _ _ hb).1
      | none =>
        rw [findIterAux_cons_none fuel pos hf]
        exact ih _ _

theorem findIterAux_complete {γ : Type} {f : Str → Option (Nat × γ)}
    (hnil : f [] = none) :
    ∀ (fuel : Nat) (s : Str) (pos p : Nat) (r : Nat × γ),
      s.length ≤ fuel → f (s.drop p) = some r →
      ∃ m ∈ findIterAux f fuel s pos, m.1 ≤ pos + p ∧ pos + p < m.2.1 := by
  intro fuel
  induction fuel with
  | zero =>
    intro s pos p r hlen h
    have hs : s = [] := List.eq_nil_of_length_eq_zero (by omega)
    rw [hs, List.drop_nil, hnil] at h
    cases h
  | succ fuel ih =>
    intro s pos p r hlen h
    match s with
    | [] =>
      rw [List.drop_nil, hnil] at h
      cases h
    | c :: rest =>
      cases hf : f (c :: rest) with
      | some v =>
        obtain ⟨len, g⟩ := v
        have hl : 1 ≤ max len 1 := Nat.le_max_right len 1
        rw [findIterAux_cons_some fuel pos hf]
        have hlen' : rest.length + 1 ≤ fuel + 1 := by
          simpa using hlen
        by_cases hp : p < max len 1
        · refine ⟨(pos, pos + max len 1, g), List.mem_cons_self _ _, ?_, ?_⟩
          · show pos ≤ pos + p
            omega
          · show pos + p < pos + max len 1
            omega
        · push_neg at hp
          have hlen2 : (rest.drop (max len 1 - 1)).length ≤ fuel := by
            rw [List.length_drop]
            omega
          have hdrop : (rest.drop (max len 1 - 1)).drop (p - max len 1) =
              (c :: rest).drop p := by
            obtain ⟨d, hdd⟩ : ∃ d, p = d + 1 := ⟨p - 1, by omega⟩
            rw [List.drop_drop, hdd, List.drop_succ_cons]
            have h2 : max len 1 - 1 + (d + 1 - max len 1) = d := by omega
            rw [h2]
          have h' : f ((rest.drop (max len 1 - 1)).drop (p - max len 1)) = some r := by
            rw [hdrop]; exact h
          obtain ⟨m, hm, hm1, hm2⟩ := ih _ (pos + max len 1) (p - max len 1) r hlen2 h'
          refine ⟨m, List.mem_cons_of_mem _ hm, by omega, by omega⟩
      | none =>
        have hp : p ≠ 0 := by
          intro h0
          rw [h0, List.drop_zero, hf] at h
          cases h
        rw [findIterAux_cons_none fuel pos hf]
        have hlen' : rest.length + 1 ≤ fuel + 1 := by
          simpa using hlen
        have hlen2 : rest.length ≤ fuel := by omega
        have hdrop : rest.drop (p - 1) = (c :: rest).drop p := by
          obtain ⟨d, hdd⟩ : ∃ d, p = d + 1 := ⟨p - 1, by omega⟩
          rw [hdd, List.drop_succ_cons]
          have h2 : d + 1 - 1 = d := by omega
          rw [h2]
        have h' : f (rest.drop (p - 1)) = some r := by rw [hdrop]; exact h
        obtain ⟨m, hm, hm1, hm2⟩ := ih _ (pos + 1) (p - 1) r hlen2 h'
        exact ⟨m, hm, by omega, by omega⟩

theorem findIter_sound {γ : Type} {f : Str → Option (Nat × γ)} {s : Str}
    {m : Nat × Nat × γ} (hm : m ∈ findIter f s) :
    ∃ len, f (s.drop m.1) = some (len, m.2.2) ∧ m.2.1 = m.1 + max len 1 ∧
      m.1 < m.2.1 := by
  obtain ⟨-, len, hf, he⟩ := findIterAux_sound f s.length s 0 m hm
  have hl : 1 ≤ max len 1 := Nat.le_max_right len 1
  exact ⟨len, by simpa using hf, he, by omega⟩

theorem findIter_pairwise {γ : Type} (f : Str → Option (Nat × γ)) (s : Str) :
    List.Pairwise (fun a b : Nat × Nat × γ => a.2.1 ≤ b.1) (findIter f s) :=
  findIterAux_pairwise f s.length s 0

theorem findIter_complete {γ : Type} {f : Str → Option (Nat × γ)}
    (hnil : f [] = none) {s : Str} {p : Nat} {r : Nat × γ}
    (h : f (s.drop p) = some r) :
    ∃ m ∈ findIter f s, m.1 ≤ p ∧ p < m.2.1 := by
  have := findIterAux_complete hnil s.length s 0 p r (le_refl _) h
  simpa using this

theorem mem_parse_output {t : Str} {i : Issue} :
    i ∈ parse_output t ↔
      (∃ m ∈ findIter p1MatchAt t, mkIssue1 t m = i) ∨
      (∃ m ∈ findIter p2MatchAt t, mkIssue2 t m = i) ∨
      (∃ m ∈ findIter p3MatchAt t, mkIssue3 t m = i) ∨
      (∃ m ∈ findIter p4MatchAt t, mkIssue4 t m = i) ∨
      (∃ m ∈ findIter p5MatchAt t, mkIssue5 t m = i) := by
  simp [parse_output, block1, block2, block3, block4, block5, List.mem_append,
    List.mem_map, or_assoc]

theorem parse_output_severity (t : Str) :
    ∀ i ∈ parse_output t,
      i.severity = "HIGH".toList ∨ i.severity = "MEDIUM".toList := by
  intro i hi
  rcases mem_parse_output.mp hi with
    ⟨m, -, rfl⟩ | ⟨m, -, rfl⟩ | ⟨m, -, rfl⟩ | ⟨m, -, rfl⟩ | ⟨m, -, rfl⟩ <;>
    simp [mkIssue1, mkIssue2, mkIssue3, mkIssue4, mkIssue5]

theorem parse_output_low_filter (t : Str) :
    (parse_output t).filter (fun i => i.severity = "LOW".toList) = [] := by
  rw [List.filter_eq_nil_iff]
  intro i hi
  rcases parse_output_severity t i hi with h | h <;> simp [h]

theorem severity_filter_lengths (l : List Issue)
    (h : ∀ i ∈ l, i.severity = "HIGH".toList ∨ i.severity = "MEDIUM".toList) :
    (l.filter (fun i => i.severity = "HIGH".toList)).length +
    (l.filter (fun i => i.severity = "MEDIUM".toList)).length +
    (l.filter (fun i => i.severity = "LOW".toList)).length = l.length := by
  induction l with
  | nil => rfl
  | cons a l ih =>
    have ha := h a (List.mem_cons_self a l)
    have hrec := ih (fun i hi => h i (List.mem_cons_of_mem a hi))
    rw [← List.countP_eq_length_filter, ← List.countP_eq_length_filter,
      ← List.countP_eq_length_filter] at hrec ⊢
    rw [List.countP_cons, List.countP_cons, List.countP_cons, List.length_cons]
    rcases ha with ha | ha
    · rw [ha]
      have e1 : (decide ("HIGH".toList = "HIGH".toList)) = true := by decide
      have e2 : (decide ("HIGH".toList = "MEDIUM".toList)) = false := by decide
      have e3 : (decide ("HIGH".toList = "LOW".toList)) = false := by decide
      rw [e1, e2, e3]
      have ht : (if true = true then (1 : Nat) else 0) = 1 := by simp
      have hf : (if false = true then (1 : Nat) else 0) = 0 := by simp
      simp only [ht, hf, if_true, ite_true]
      omega
    · rw [ha]
      have e1 : (decide ("MEDIUM".toList = "HIGH".toList)) = false := by decide
      have e2 : (decide ("MEDIUM".toList = "MEDIUM".toList)) = true := by decide
      have e3 : (decide ("MEDIUM".toList = "LOW".toList)) = false := by decide
      rw [e1, e2, e3]
      have ht : (if true = true then (1 : Nat) else 0) = 1 := by simp
      have hf : (if false = true then (1 : Nat) else 0) = 0 := by simp
      simp only [ht, hf, if_true, ite_true]
      omega

theorem append_of_pyStrip (l : Str) : ∃ u v, u ++ pyStrip l ++ v = l := by
  refine ⟨l.takeWhile Char.isWhitespace,
    ((l.dropWhile Char.isWhitespace).reverse.takeWhile Char.isWhitespace).reverse,
    ?_⟩
  have h1 : pyStrip l ++
      ((l.dropWhile Char.isWhitespace).reverse.takeWhile Char.isWhitespace).reverse
      = l.dropWhile Char.isWhitespace := by
    rw [pyStrip, stripEnd, ← List.reverse_append,
      List.takeWhile_append_dropWhile, List.reverse_reverse]
  rw [List.append_assoc, h1, List.takeWhile_append_dropWhile]

theorem append_of_pySlice (s : Str) (a b : Nat) :
    ∃ u v, u ++ pySlice s a b ++ v = s := by
  refine ⟨(s.take b).take a, s.drop b, ?_⟩
  rw [pySlice, List.take_append_drop, List.take_append_drop]

theorem seg_trans {x m s : Str} (h1 : ∃ u v, u ++ x ++ v = m)
    (h2 : ∃ u v, u ++ m ++ v = s) : ∃ u v, u ++ x ++ v = s := by
  obtain ⟨u1, v1, h1⟩ := h1
  obtain ⟨u2, v2, h2⟩ := h2
  exact ⟨u2 ++ u1, v1 ++ v2, by rw [← h2, ← h1]; simp [List.append_assoc]⟩

theorem extract_within (s : Str) (a b x y : Nat) :
    ∃ u v, u ++ extract s a b x y ++ v = s :=
  seg_trans (append_of_pyStrip (pySlice s (a - x) (b + y)))
    (append_of_pySlice s (a - x) (b + y))

theorem parse_output_context (t : Str) :
    ∀ i ∈ parse_output t, ∃ u v, u ++ i.context ++ v = t := by
  intro i hi
  rcases mem_parse_output.mp hi with
    ⟨m, -, rfl⟩ | ⟨m, -, rfl⟩ | ⟨m, -, rfl⟩ | ⟨m, -, rfl⟩ | ⟨m, -, rfl⟩ <;>
    exact extract_within t _ _ _ _

/-- Claim C1: for every log text, the three severity-bucket counts of the
report always add up to `total_issues`, the length of the issue list. -/
theorem claim_C1 (t : Str) (rc : Int) :
    (mkReport rc (parse_output t)).by_severity_HIGH +
    (mkReport rc (parse_output t)).by_severity_MEDIUM +
    (mkReport rc (parse_output t)).by_severity_LOW =
    (mkReport rc (parse_output t)).total_issues :=
  severity_filter_lengths (parse_output t) (parse_output_severity t)

/-- Claim C10: every issue produced by the scan has severity HIGH or
MEDIUM (no registered detector assigns LOW), and consequently the LOW
bucket of `by_severity` is 0 in every report. -/
theorem claim_C10 (t : Str) (rc : Int) :
    (∀ i ∈ parse_output t,
      i.severity = "HIGH".toList ∨ i.severity = "MEDIUM".toList) ∧
    (mkReport rc (parse_output t)).by_severity_LOW = 0 := by
  refine ⟨parse_output_severity t, ?_⟩
  show ((parse_output t).filter (fun i => i.severity = "LOW".toList)).length = 0
  rw [parse_output_low_filter]
  rfl

theorem claim_C10_witness :
    ((parse_output markerText).headD dIssue).severity = "HIGH".toList ∨
    ((parse_output markerText).headD dIssue).severity = "MEDIUM".toList :=
  (claim_C10 markerText 0).1 _ (by decide)

/-- Claim C5: context extraction is total and clamped, and the stored
context of every issue is a contiguous substring of the original log
text. -/
theorem claim_C5 (t : Str) (i : Issue) (hi : i ∈ parse_output t) :
    ∃ u v, u ++ i.context ++ v = t :=
  parse_output_context t i hi

theorem claim_C5_witness :
    ∃ u v, u ++ ((parse_output markerText).headD dIssue).context ++ v
      = markerText :=
  claim_C5 markerText _ (by decide)

/-- Claim C2 fails on the code: the log below contains an
unrecognized-test-marker error, yet the issue produced for it (like every
issue of that kind) carries no kind-specific extra field at all — the
captured marker name is discarded. -/
theorem claim_C2_counterexample :
    (∃ i ∈ parse_output markerText, i.type = "UnknownPytestMarker".toList) ∧
    ∀ i ∈ parse_output markerText, extraFields i = [] := by
  constructor
  · decide
  · decide

/-- Claim C2, amended: every Issue of kind unrecognized-test-marker carries
no kind-specific extra field; the marker name is matched by the detector's
capture group but never stored in the issue record. -/
theorem claim_C2 (t : Str) (i : Issue) (hi : i ∈ parse_output t)
    (ht : i.type = "UnknownPytestMarker".toList) : extraFields i = [] := by
  rcases mem_parse_output.mp hi with
    ⟨m, -, rfl⟩ | ⟨m, -, rfl⟩ | ⟨m, -, rfl⟩ | ⟨m, -, rfl⟩ | ⟨m, -, rfl⟩
  · rw [show (mkIssue1 t m).type = "MissingOptionalImport".toList from rfl] at ht
    exact absurd ht (by decide)
  · rw [show (mkIssue2 t m).type = "MissingDependency".toList from rfl] at ht
    exact absurd ht (by decide)
  · rw [show (mkIssue3 t m).type = "PydanticV2Migration".toList from rfl] at ht
    exact absurd ht (by decide)
  · rfl
  · rw [show (mkIssue5 t m).type = "ImportError".toList from rfl] at ht
    exact absurd ht (by decide)

theorem claim_C2_witness :
    extraFields ((parse_output markerText).headD dIssue) = [] :=
  claim_C2 markerText _ (by decide) (by decide)

/-- Claim C6: with neither log origin supplied, the invocation exits early
with status 2 — non-zero and distinct from the status 1 used when issues
are detected and from the clean status 0 — and no report is produced, so
neither artifact is written. -/
theorem claim_C6 (fs : Str → Option Str) (prc : Int) (pout : Str) :
    main_run ⟨false, none⟩ fs prc pout = .earlyExit 2 ∧
    artifactsWritten (main_run ⟨false, none⟩ fs prc pout) = false ∧
    (2 : Int) ≠ 0 ∧ (2 : Int) ≠ 1 ∧
    ∀ (out : Str) (fs2 : Str → Option Str) (prc2 : Int),
      parse_output out ≠ [] →
      main_run ⟨true, none⟩ fs2 prc2 out =
        .finished (mkReport prc2 (parse_output out)) 1 := by
  refine ⟨rfl, rfl, by decide, by decide, ?_⟩
  intro out fs2 prc2 hne
  have hlen : ¬((parse_output out).length = 0) := by
    simpa [List.length_eq_zero] using hne
  simp [main_run, hlen]

theorem claim_C6_witness :
    main_run ⟨true, none⟩ (fun _ => none) 5 markerText =
      .finished (mkReport 5 (parse_output markerText)) 1 :=
  (claim_C6 (fun _ => none) 5 markerText).2.2.2.2 markerText (fun _ => none) 5
    (by decide)

/-- Claim C9: when the log text comes from a pre-existing file, the
recorded `return_code` is the constant sentinel 0, independent of the path
and of the log content. -/
theorem claim_C9 (path content : Str) (fs : Str → Option Str) (prc : Int)
    (pout : Str) (hp : path ≠ []) (h : fs path = some content) :
    main_run ⟨false, some path⟩ fs prc pout =
      .finished (mkReport 0 (parse_output content))
        (if (parse_output content).length = 0 then 0 else 1) ∧
    (mkReport 0 (parse_output content)).return_code = 0 := by
  refine ⟨?_, rfl⟩
  simp [main_run, hp, h]

theorem claim_C9_witness :
    main_run ⟨false, some "pytest.log".toList⟩ (fun _ => some markerText) 7 [] =
      .finished (mkReport 0 (parse_output markerText))
        (if (parse_output markerText).length = 0 then 0 else 1) ∧
    (mkReport 0 (parse_output markerText)).return_code = 0 :=
  claim_C9 "pytest.log".toList markerText (fun _ => some markerText) 7 []
    (by decide) rfl

theorem block_filter_nil {γ : Type} (t : Str) (f : Str → Option (Nat × γ))
    (mk : Nat × Nat × γ → Issue) (ty : Str) (h : ∀ m, (mk m).type ≠ ty) :
    ((findIter f t).map mk).filter (fun x => x.type = ty) = [] := by
  rw [List.filter_eq_nil_iff]
  intro i hi
  obtain ⟨m, -, rfl⟩ := List.mem_map.mp hi
  simpa using h m

/-- Claim C3 fails on the code: the error string
`NameError: name 'Optional' is not defined` occurs (at offset 0) in the
log below, yet the scan reports nothing, because the regex of pattern 1
also demands the rest of the line plus a terminating newline and the log
ends without one. -/
theorem claim_C3_counterexample :
    occursAt L1 optBare 0 ∧ parse_output optBare = [] :=
  ⟨by decide, by decide⟩

/-- Claim C3, amended: whenever the exact error string occurs and a
newline appears anywhere after that occurrence, the scan produces at least
one Issue of the missing-import kind, regardless of the occurrence's
position. -/
theorem claim_C3 (t : Str) (p : Nat) (h1 : occursAt L1 t p)
    (h2 : '\n' ∈ t.drop (p + L1.length)) :
    ∃ i ∈ parse_output t, i.type = "MissingOptionalImport".toList := by
  have hci : ciPrefixOf L1 (t.drop p) = true := ciPrefixOf_of_lit h1
  have hdrop : (t.drop p).drop L1.length = t.drop (p + L1.length) :=
    List.drop_drop ..
  obtain ⟨k, hk⟩ := firstNL_of_mem h2
  have hsome : p1MatchAt (t.drop p) = some (L1.length + k + 1, ()) := by
    rw [p1MatchAt, if_pos hci, hdrop, hk]
  obtain ⟨m, hm, -, -⟩ := findIter_complete (by decide) hsome
  refine ⟨mkIssue1 t m, ?_, rfl⟩
  rw [mem_parse_output]
  exact Or.inl ⟨m, hm, rfl⟩

theorem claim_C3_witness :
    ∃ i ∈ parse_output optLine, i.type = "MissingOptionalImport".toList :=
  claim_C3 optLine 0 (by decide) (by decide)

/-- Claim C4: a log with exactly one occurrence of the
`ModuleNotFoundError` literal yields exactly one missing-dependency issue,
of severity HIGH, with dependency name `RestrictedPython`. -/
theorem claim_C4 (t : Str) (p : Nat) (h1 : occursAt L2 t p)
    (huniq : ∀ q, occursAt L2 t q → q = p) :
    ∃ i, (parse_output t).filter
        (fun x => x.type = "MissingDependency".toList) = [i] ∧
      i.severity = "HIGH".toList ∧
      i.dependency = some "RestrictedPython".toList := by
  have h1' : litPrefixOf L2 (t.drop p) = true := h1
  have hsome : p2MatchAt (t.drop p) = some (L2.length, ()) := by
    rw [p2MatchAt, if_pos h1']
  obtain ⟨m0, hm0, -, -⟩ := findIter_complete (by decide) hsome
  have hstart : ∀ m ∈ findIter p2MatchAt t, m.1 = p := by
    intro m hm
    obtain ⟨len, hf, -, -⟩ := findIter_sound hm
    have hocc : litPrefixOf L2 (t.drop m.1) = true := by
      by_contra hb
      rw [p2MatchAt, if_neg hb] at hf
      cases hf
    exact huniq m.1 hocc
  have hsingle : findIter p2MatchAt t = [m0] := by
    cases hlist : findIter p2MatchAt t with
    | nil => rw [hlist] at hm0; cases hm0
    | cons x xs =>
      cases xs with
      | nil =>
        rw [hlist] at hm0
        have hx : m0 = x := by simpa using hm0
        rw [hx]
      | cons y ys =>
        exfalso
        have hx : x ∈ findIter p2MatchAt t := by rw [hlist]; simp
        have hy : y ∈ findIter p2MatchAt t := by rw [hlist]; simp
        have hx1 := hstart x hx
        have hy1 := hstart y hy
        obtain ⟨lenx, -, -, hxlt⟩ := findIter_sound hx
        have hpair := findIter_pairwise p2MatchAt t
        rw [hlist] at hpair
        have hchain : x.2.1 ≤ y.1 :=
          (List.pairwise_cons.mp hpair).1 y (by simp)
        omega
  have hb2 : (block2 t).filter
      (fun x => x.type = "MissingDependency".toList) = [mkIssue2 t m0] := by
    rw [block2, hsingle, List.map_singleton]
    have hty : (decide ((mkIssue2 t m0).type = "MissingDependency".toList))
        = true := decide_eq_true rfl
    simp [List.filter_cons, hty]
    rfl
  have hf1 : (block1 t).filter
      (fun x => x.type = "MissingDependency".toList) = [] :=
    block_filter_nil t p1MatchAt (mkIssue1 t) _
      (fun m h => (by decide : ¬("MissingOptionalImport".toList = "MissingDependency".toList)) h)
  have hf3 : (block3 t).filter
      (fun x => x.type = "MissingDependency".toList) = [] :=
    block_filter_nil t p3MatchAt (mkIssue3 t) _
      (fun m h => (by decide : ¬("PydanticV2Migration".toList = "MissingDependency".toList)) h)
  have hf4 : (block4 t).filter
      (fun x => x.type = "MissingDependency".toList) = [] :=
    block_filter_nil t p4MatchAt (mkIssue4 t) _
      (fun m h => (by decide : ¬("UnknownPytestMarker".toList = "MissingDependency".toList)) h)
  have hf5 : (block5 t).filter
      (fun x => x.type = "MissingDependency".toList) = [] :=
    block_filter_nil t p5MatchAt (mkIssue5 t) _
      (fun m h => (by decide : ¬("ImportError".toList = "MissingDependency".toList)) h)
  refine ⟨mkIssue2 t m0, ?_, rfl, rfl⟩
  rw [parse_output, List.filter_append, List.filter_append,
    List.filter_append, List.filter_append, hf1, hb2, hf3, hf4, hf5]
  rfl

theorem claim_C4_witness :
    ∃ i, (parse_output L2).filter
        (fun x => x.type = "MissingDependency".toList) = [i] ∧
      i.severity = "HIGH".toList ∧
      i.dependency = some "RestrictedPython".toList :=
  claim_C4 L2 0 (by decide) (by
    intro q hq
    have hlt : q < L2.length := occursAt_lt (by decide) hq
    have hb : ∀ r, r < L2.length → occursAt L2 L2 r → r = 0 := by decide
    exact hb q hlt hq)

theorem p5MatchAt_lit (tail : Str) :
    p5MatchAt (LIT7 ++ tail) =
      some (P5LIT.length + W7.length + P5MID.length + M7.length + 1,
        (W7, M7)) := by
  have hs : LIT7 ++ tail =
      P5LIT ++ (W7 ++ (P5MID ++ (M7 ++ (Char.ofNat 39 :: tail)))) := by
    simp [LIT7, List.append_assoc]
  have hword : ∀ x ∈ W7, isWordChar x = true := by decide
  have hmid : P5MID = Char.ofNat 39 :: " from '".toList := by decide
  have htw : (W7 ++ (P5MID ++ (M7 ++ (Char.ofNat 39 :: tail)))).takeWhile
      isWordChar = W7 := by
    rw [takeWhile_prepend hword, hmid, List.cons_append,
      takeWhile_cons_neg (by decide), List.append_nil]
  have hnq : ∀ x ∈ M7, (fun c => !(c = '\'')) x = true := by decide
  have htm : (M7 ++ (Char.ofNat 39 :: tail)).takeWhile
      (fun c => !(c = '\'')) = M7 := by
    rw [takeWhile_prepend hnq, takeWhile_cons_neg (by decide), List.append_nil]
  rw [hs, p5MatchAt]
  simp only [litPrefixOf_append, List.drop_left, htw, htm,
    (by decide : ¬(W7 = [])), (by decide : ¬(M7 = [])),
    (by decide : (Char.ofNat 39 : Char) = '\''),
    eq_self_iff_true, ite_true, ite_false, if_true, if_false,
    not_false_eq_true]

theorem p5_start_occurs {t : Str} {m : Nat × Nat × (Str × Str)}
    (hm : m ∈ findIter p5MatchAt t) : occursAt P5LIT t m.1 := by
  obtain ⟨len, hf, -, -⟩ := findIter_sound hm
  by_contra hb
  have hb' : ¬(litPrefixOf P5LIT (t.drop m.1) = true) := hb
  rw [p5MatchAt, if_neg hb'] at hf
  cases hf

/-- Claim C7 fails on the code: the log below contains
`ImportError: cannot import name 'Foo' from 'pkg.bar'`, but an earlier
overlapping match of the same detector captures `Evil` as the symbol and
`ImportError: cannot import name ` as the module, and no issue with symbol
`Foo` and module `pkg.bar` is produced. -/
theorem claim_C7_counterexample :
    (∃ q, occursAt LIT7 evilText q) ∧
    ∀ i ∈ parse_output evilText,
      ¬(i.imported_name = some W7 ∧ i.from_module = some M7) :=
  ⟨⟨45, by decide⟩, by decide⟩

/-- Claim C7, amended: if
`ImportError: cannot import name 'Foo' from 'pkg.bar'` occurs at an offset
no later than every occurrence of the detector's opening literal
`ImportError: cannot import name '` (in particular whenever it contains
the first such occurrence), the scan produces an Issue of the broken-import
kind with symbol `Foo` and module `pkg.bar`. -/
theorem claim_C7 (t : Str) (p : Nat) (h1 : occursAt LIT7 t p)
    (hfirst : ∀ q, occursAt P5LIT t q → p ≤ q) :
    ∃ i ∈ parse_output t, i.type = "ImportError".toList ∧
      i.imported_name = some W7 ∧ i.from_module = some M7 := by
  obtain ⟨tail, htail⟩ := litPrefixOf_decomp h1
  have hsome : p5MatchAt (t.drop p) =
      some (P5LIT.length + W7.length + P5MID.length + M7.length + 1,
        (W7, M7)) := by
    rw [htail]; exact p5MatchAt_lit tail
  obtain ⟨m, hm, hm1, -⟩ := findIter_complete (by decide) hsome
  have hocc : occursAt P5LIT t m.1 := p5_start_occurs hm
  have heq : m.1 = p := le_antisymm hm1 (hfirst m.1 hocc)
  obtain ⟨len, hf, -, -⟩ := findIter_sound hm
  rw [heq, hsome] at hf
  injection hf with hpair
  injection hpair with hlen hg
  refine ⟨mkIssue5 t m, ?_, rfl, ?_, ?_⟩
  · rw [mem_parse_output]
    exact Or.inr (Or.inr (Or.inr (Or.inr ⟨m, hm, rfl⟩)))
  · show some m.2.2.1 = some W7
    rw [← hg]
  · show some m.2.2.2 = some M7
    rw [← hg]

theorem claim_C7_witness :
    ∃ i ∈ parse_output LIT7, i.type = "ImportError".toList ∧
      i.imported_name = some W7 ∧ i.from_module = some M7 :=
  claim_C7 LIT7 0 (by decide) (fun q _ => Nat.zero_le q)

theorem pairwise_of_forall_mem {α : Type} {R : α → α → Prop} :
    ∀ l : List α, (∀ a ∈ l, ∀ b ∈ l, R a b) → l.Pairwise R
  | [], _ => List.Pairwise.nil
  | a :: l, h =>
    List.Pairwise.cons (fun b hb => h a (by simp) b (by simp [hb]))
      (pairwise_of_forall_mem l
        (fun x hx y hy => h x (by simp [hx]) y (by simp [hy])))

theorem block1_index (t : Str) : ∀ i ∈ block1 t, detectorIndex i = 1 := by
  intro i hi
  obtain ⟨m, -, rfl⟩ := List.mem_map.mp hi
  rfl

theorem block2_index (t : Str) : ∀ i ∈ block2 t, detectorIndex i = 2 := by
  intro i hi
  obtain ⟨m, -, rfl⟩ := List.mem_map.mp hi
  rfl

theorem block3_index (t : Str) : ∀ i ∈ block3 t, detectorIndex i = 3 := by
  intro i hi
  obtain ⟨m, -, rfl⟩ := List.mem_map.mp hi
  rfl

theorem block4_index (t : Str) : ∀ i ∈ block4 t, detectorIndex i = 4 := by
  intro i hi
  obtain ⟨m, -, rfl⟩ := List.mem_map.mp hi
  rfl

theorem block5_index (t : Str) : ∀ i ∈ block5 t, detectorIndex i = 5 := by
  intro i hi
  obtain ⟨m, -, rfl⟩ := List.mem_map.mp hi
  rfl

/-- Claim C8: the issue sequence is ordered by detector registration order
first (the detector index along `parse_output` is non-decreasing) and by
match order within each detector (each detector's match list is ordered
and non-overlapping); moreover every detector contributes all of its
matches: any position where a matcher succeeds is covered by an emitted
match of that detector. -/
theorem claim_C8 (t : Str) :
    List.Pairwise (fun a b => detectorIndex a ≤ detectorIndex b)
      (parse_output t) ∧
    scanNonOverlap p1MatchAt t ∧ scanNonOverlap p2MatchAt t ∧
    scanNonOverlap p3MatchAt t ∧ scanNonOverlap p4MatchAt t ∧
    scanNonOverlap p5MatchAt t ∧
    scanComplete p1MatchAt t ∧ scanComplete p2MatchAt t ∧
    scanComplete p3MatchAt t ∧ scanComplete p4MatchAt t ∧
    scanComplete p5MatchAt t := by
  have hP : ∀ (l : List Issue) (c : Nat), (∀ i ∈ l, detectorIndex i = c) →
      List.Pairwise (fun a b => detectorIndex a ≤ detectorIndex b) l := by
    intro l c hc
    apply pairwise_of_forall_mem
    intro a ha b hb
    rw [hc a ha, hc b hb]
  have hub12 : ∀ i ∈ block1 t ++ block2 t, detectorIndex i ≤ 2 := by
    intro i hi
    rcases List.mem_append.mp hi with h | h
    · rw [block1_index t i h]; omega
    · rw [block2_index t i h]
  have hub123 : ∀ i ∈ block1 t ++ block2 t ++ block3 t,
      detectorIndex i ≤ 3 := by
    intro i hi
    rcases List.mem_append.mp hi with h | h
    · exact le_trans (hub12 i h) (by omega)
    · rw [block3_index t i h]
  have hub1234 : ∀ i ∈ block1 t ++ block2 t ++ block3 t ++ block4 t,
      detectorIndex i ≤ 4 := by
    intro i hi
    rcases List.mem_append.mp hi with h | h
    · exact le_trans (hub123 i h) (by omega)
    · rw [block4_index t i h]
  have hp12 : List.Pairwise (fun a b => detectorIndex a ≤ detectorIndex b)
      (block1 t ++ block2 t) :=
    List.pairwise_append.mpr ⟨hP _ 1 (block1_index t), hP _ 2 (block2_index t),
      fun a ha b hb => by rw [block1_index t a ha, block2_index t b hb]; omega⟩
  have hp123 : List.Pairwise (fun a b => detectorIndex a ≤ detectorIndex b)
      (block1 t ++ block2 t ++ block3 t) :=
    List.pairwise_append.mpr ⟨hp12, hP _ 3 (block3_index t),
      fun a ha b hb => by
        rw [block3_index t b hb]; exact le_trans (hub12 a ha) (by omega)⟩
  have hp1234 : List.Pairwise (fun a b => detectorIndex a ≤ detectorIndex b)
      (block1 t ++ block2 t ++ block3 t ++ block4 t) :=
    List.pairwise_append.mpr ⟨hp123, hP _ 4 (block4_index t),
      fun a ha b hb => by
        rw [block4_index t b hb]; exact le_trans (hub123 a ha) (by omega)⟩
  have hp12345 : List.Pairwise (fun a b => detectorIndex a ≤ detectorIndex b)
      (block1 t ++ block2 t ++ block3 t ++ block4 t ++ block5 t) :=
    List.pairwise_append.mpr ⟨hp1234, hP _ 5 (block5_index t),
      fun a ha b hb => by
        rw [block5_index t b hb]; exact le_trans (hub1234 a ha) (by omega)⟩
  refine ⟨hp12345, findIter_pairwise _ _, findIter_pairwise _ _,
    findIter_pairwise _ _, findIter_pairwise _ _, findIter_pairwise _ _,
    ?_, ?_, ?_, ?_, ?_⟩ <;>
    exact fun p r h => findIter_complete (by decide) h

theorem claim_C8_witness :
    ∃ m ∈ findIter p2MatchAt L2, m.1 ≤ 0 ∧ 0 < m.2.1 :=
  (claim_C8 L2).2.2.2.2.2.2.2.1 0 (L2.length, ()) (by decide)

end UltimaPrime
